import Mathlib

/-
Verification of the artifact-mirroring and project-location-discovery core
of the ploomber repository, against its natural-language specification.

The filesystem is modelled as an association list from absolute canonical
paths (lists of name components, rooted at the filesystem root) to entries
(regular files with byte content, or directories).  Python `pathlib` /
`shutil` / `os` operations used by the source are embedded as explicit
state-passing functions; a raised Python exception is an `err` result that
carries the state at the moment the exception was raised (Python mutations
performed before an exception are kept, e.g. `mkdir` runs before the
remote-existence check in `download`).
-/

set_option autoImplicit false

namespace Ploomber

/-- A canonical absolute path: its components, from the filesystem root. -/
abbrev FPath := List String

/-- A filesystem entry: a regular file with its byte content, or a directory. -/
inductive Entry where
  | file (content : List Nat)
  | dir
deriving DecidableEq, Repr

/-- The filesystem: an association list from absolute paths to entries.
Lookup takes the first match, so prepending an entry overwrites. -/
abbrev FS := List (FPath × Entry)

/-- First-match lookup of a path in the filesystem. -/
def lookup : FS → FPath → Option Entry
  | [], _ => none
  | e :: rest, p => if e.1 = p then some e.2 else lookup rest p

/-- `Path(p).exists()`: an entry (file or directory) is present at `p`. -/
def pexists (fs : FS) (p : FPath) : Bool :=
  (lookup fs p).isSome

/-- `Path(p).is_file()`. -/
def isFile (fs : FS) (p : FPath) : Bool :=
  match lookup fs p with
  | some (.file _) => true
  | _ => false

/-- `Path(p).is_dir()`. -/
def isDir (fs : FS) (p : FPath) : Bool :=
  match lookup fs p with
  | some .dir => true
  | _ => false

/-- Write (create or overwrite) an entry at a path. -/
def setEntry (fs : FS) (p : FPath) (e : Entry) : FS :=
  (p, e) :: fs

/-- The Python exceptions raised by the embedded code. -/
inductive PyError where
  | valueError
  | typeError
  | unboundLocalError
  | fileExistsError
  | fileNotFoundError
  | notADirectoryError
  | dagSpecNotFound
  | remoteFileNotFound (localPath clientDescr : String)
deriving DecidableEq, Repr

deriving instance DecidableEq for Except

/-- Result of a state-mutating operation: the value (or the exception raised)
together with the filesystem as left by the operation. -/
inductive PyResult (α : Type) where
  | ok (a : α) (fs : FS)
  | err (e : PyError) (fs : FS)
deriving DecidableEq, Repr

/-- A possibly-relative, possibly-unnormalized path argument, as handed to the
Python functions (`str` / `pathlib.Path` arguments). -/
structure InputPath where
  absolute : Bool
  comps : List String
deriving DecidableEq, Repr

/-- Render an input path the way `str(path)` does (up to the quoting that
`!r` adds, which the model elides). -/
def renderInput (p : InputPath) : String :=
  (if p.absolute then "/" else "") ++ String.intercalate "/" p.comps

/-- Lexical normalization of path components onto an accumulator:
drops `.` and empty components and lets `..` remove the last component. -/
def normalizeComps (acc : FPath) : List String → FPath
  | [] => acc
  | c :: rest =>
    if c = "." ∨ c = "" then normalizeComps acc rest
    else if c = ".." then normalizeComps acc.dropLast rest
    else normalizeComps (acc ++ [c]) rest

/-- Modelled from the spec: `_resolve` (ploomber/clients/storage/util.py is
not under src/) canonicalizes a path argument to an absolute path — a
relative path is joined to the current working directory, then `.` and `..`
components are normalized away (the model has no symlinks). -/
def _resolve (cwd : FPath) (p : InputPath) : FPath :=
  normalizeComps (if p.absolute then [] else cwd) p.comps

/-- `PurePath.relative_to`: strips `root` from the front of `p`, raising
`ValueError` when `p` does not lie under `root`. -/
def relative_to (p root : FPath) : Except PyError FPath :=
  if root.isPrefixOf p then .ok (p.drop root.length) else .error .valueError

/-- The chain of nonempty proper-and-full prefixes of `p`, shortest first:
the directories `mkdir(parents=True)` walks. -/
def mkdirChain (p : FPath) : List FPath :=
  (List.range p.length).map (fun i => p.take (i + 1))

/-- One `mkdir(exist_ok=True)` step: a directory already there is fine, a
file raises `FileExistsError`, otherwise the directory is created. -/
def mkdirOne (fs : FS) (p : FPath) : PyResult Unit :=
  match lookup fs p with
  | some .dir => .ok () fs
  | some (.file _) => .err .fileExistsError fs
  | none => .ok () (setEntry fs p .dir)

/-- Create every directory in a list in order, keeping the directories
created before a failure (as `os.makedirs` does). -/
def mkdirParentsGo (fs : FS) : List FPath → PyResult Unit
  | [] => .ok () fs
  | p :: rest =>
    match mkdirOne fs p with
    | .ok _ fs₁ => mkdirParentsGo fs₁ rest
    | .err e fs₁ => .err e fs₁

/-- `Path(p).mkdir(exist_ok=True, parents=True)`. -/
def mkdirParents (fs : FS) (p : FPath) : PyResult Unit :=
  mkdirParentsGo fs (mkdirChain p)

/-- The entries of `fs` lying in the subtree rooted at `src` (including
`src` itself). -/
def subtreeEntries (fs : FS) (src : FPath) : FS :=
  fs.filter (fun e => src.isPrefixOf e.1)

/-- Re-root a list of entries from `src` to `dst`. -/
def retarget (src dst : FPath) (l : FS) : FS :=
  l.map (fun e => (dst ++ e.1.drop src.length, e.2))

/-- The final path component (as a singleton), as `PurePath.name`. -/
def lastComp (p : FPath) : FPath :=
  match p.getLast? with
  | some x => [x]
  | none => []

/-- `shutil.copy(src, dst)`: requires `src` to be a regular file; copying
onto an existing directory drops the file inside it, otherwise the file is
written (created or overwritten) at `dst`. -/
def copyFile (src dst : FPath) (fs : FS) : PyResult Unit :=
  match lookup fs src with
  | some (.file c) =>
    if isDir fs dst then .ok () (setEntry fs (dst ++ lastComp src) (.file c))
    else .ok () (setEntry fs dst (.file c))
  | _ => .err .fileNotFoundError fs

/-- `shutil.copytree(src, dst)`: `src` must be a directory, `dst` must not
exist (else `FileExistsError`); then `dst`'s directory chain is created and
a snapshot of the whole `src` subtree is copied under `dst`. -/
def copytree (src dst : FPath) (fs : FS) : PyResult Unit :=
  if ¬ isDir fs src then .err .notADirectoryError fs
  else if (lookup fs dst).isSome then .err .fileExistsError fs
  else
    match mkdirParentsGo fs (mkdirChain dst) with
    | .err e fs₁ => .err e fs₁
    | .ok _ fs₁ => .ok () (retarget src dst (subtreeEntries fs src) ++ fs₁)

/-- Removal of a whole subtree (e.g. `shutil.rmtree` run by the caller
between an upload and a download); not part of the client itself. -/
def deleteTree (fs : FS) (p : FPath) : FS :=
  fs.filter (fun e => !(p.isPrefixOf e.1))

/-- A constructed `LocalStorageClient`: the backup directory as given (used
for path mapping and for `repr`), the resolved project root, and the
process's current working directory (both canonical absolute). -/
structure Client where
  backupRaw : InputPath
  root : FPath
  cwd : FPath
deriving DecidableEq, Repr

/-- The backup directory as an absolute path. -/
def Client.backup (c : Client) : FPath :=
  _resolve c.cwd c.backupRaw

/-- `LocalStorageClient.__repr__` (quote characters elided). -/
def clientRepr (c : Client) : String :=
  "LocalStorageClient(" ++ renderInput c.backupRaw ++ ")"

/-- `LocalStorageClient._remote_path`: resolve `localPath`, take it relative to
the project root (raising `ValueError` when out of tree), and join the
suffix onto the backup directory. -/
def _remote_path (c : Client) (localPath : InputPath) : Except PyError FPath :=
  match relative_to (_resolve c.cwd localPath) c.root with
  | .ok rel => .ok (c.backup ++ rel)
  | .error e => .error e

/-- `LocalStorageClient._remote_exists`. -/
def _remote_exists (c : Client) (fs : FS) (localPath : InputPath) : Except PyError Bool :=
  match _remote_path c localPath with
  | .ok remote => .ok (pexists fs remote)
  | .error e => .error e

/-- `LocalStorageClient.upload`: map the path, create the mirror parent
chain, then `copy` a regular file or `copytree` anything else. -/
def upload (c : Client) (localPath : InputPath) (fs : FS) : PyResult Unit :=
  match _remote_path c localPath with
  | .error e => .err e fs
  | .ok remote =>
    match mkdirParentsGo fs (mkdirChain remote.dropLast) with
    | .err e fs₁ => .err e fs₁
    | .ok _ fs₁ =>
      if isFile fs₁ (_resolve c.cwd localPath) then
        copyFile (_resolve c.cwd localPath) remote fs₁
      else copytree (_resolve c.cwd localPath) remote fs₁

/-- `LocalStorageClient.download`: map the path, create the destination
parent chain, then copy a mirror file, recursively copy a mirror
directory, or raise `RemoteFileNotFound`. -/
def download (c : Client) (localPath : InputPath) (dest : Option InputPath)
    (fs : FS) : PyResult Unit :=
  match _remote_path c localPath with
  | .error e => .err e fs
  | .ok remote =>
    match mkdirParentsGo fs (mkdirChain (_resolve c.cwd (dest.getD localPath)).dropLast) with
    | .err e fs₁ => .err e fs₁
    | .ok _ fs₁ =>
      if isFile fs₁ remote then
        copyFile remote (_resolve c.cwd (dest.getD localPath)) fs₁
      else if isDir fs₁ remote then
        copytree remote (_resolve c.cwd (dest.getD localPath)) fs₁
      else .err (.remoteFileNotFound (renderInput localPath) (clientRepr c)) fs₁

/-! ## Project-location discovery (`ploomber/util/default.py`) -/

/-- Loop body of `find_file_recursively`: check `current_dir / name` and
ascend, for the given number of iterations. -/
def find_file_go (fs : FS) (name : String) : Nat → FPath → Option FPath
  | 0, _ => none
  | Nat.succ n, dir =>
    if pexists fs (dir ++ [name]) then some (dir ++ [name])
    else find_file_go fs name n dir.dropLast

/-- `find_file_recursively`: the file in the starting directory or the
nearest of its `maxLevelsUp - 1` ancestors, absolute, else `none`. -/
def find_file_recursively (fs : FS) (name : String) (maxLevelsUp : Nat)
    (startingDir : FPath) : Option FPath :=
  find_file_go fs name maxLevelsUp startingDir

/-- The project-root marker filenames, in the order the source probes them. -/
def rootMarkers : List String :=
  ["environment.yml", "environment.lock.yml", "requirements.txt",
   "requirements.lock.txt", "setup.py"]

/-- The loop of `find_root_recursively`: for each marker name in order, a
full 6-level ascent; the first hit's parent directory wins. -/
def findMarker (fs : FS) (startingDir : FPath) : List String → Option FPath
  | [] => none
  | n :: rest =>
    match find_file_recursively fs n 6 startingDir with
    | some p => some p.dropLast
    | none => findMarker fs startingDir rest

/-- `find_root_recursively`: marker search, returning `none` (or raising
`ValueError` when `raiseFlag`) if no marker is found. -/
def find_root_recursively (fs : FS) (startingDir : FPath) (raiseFlag : Bool) :
    Except PyError (Option FPath) :=
  match findMarker fs startingDir rootMarkers with
  | some r => .ok (some r)
  | none => if raiseFlag then .error .valueError else .ok none

/-- The manifest filename for an optional discriminator name. -/
def FILENAME : Option String → String
  | none => "pipeline.yaml"
  | some n => "pipeline." ++ n ++ ".yaml"

/-- Python truthiness of an optional environment-variable value
(`os.environ.get` + `if env_var:`): unset and empty are both falsy. -/
def envTruthy : Option String → Bool
  | none => false
  | some s => !(s == "")

/-- The package directories `d` for which `rootPath/src/d/name` exists,
excluding `.egg-info` directories (the glob in `_package_location`). -/
def pkgCandidates (fs : FS) (rootPath : FPath) (name : String) : List String :=
  fs.filterMap (fun e =>
    if rootPath.isPrefixOf e.1 then
      match e.1.drop rootPath.length with
      | [s, d, nm] =>
        if s = "src" ∧ nm = name ∧ ¬ d.endsWith ".egg-info" then some d
        else none
      | _ => none
    else none)

/-- The first candidate in the glob's sorted order: the one whose rendered
path `src/d/name` is smallest (left-biased on ties, as `sorted` is stable). -/
def pickMinBy (key : String → String) : List String → Option String
  | [] => none
  | a :: rest =>
    match pickMinBy key rest with
    | none => some a
    | some b => if compare (key b) (key a) = .lt then some b else some a

/-- `_package_location`: the lexicographically first existing
`src/d/name` candidate under `rootPath`, as a root-relative path. -/
def _package_location (fs : FS) (rootPath : FPath) (name : String) :
    Option (List String) :=
  match pickMinBy (fun d => d ++ "/" ++ name) (pkgCandidates fs rootPath name) with
  | some d => some ["src", d, name]
  | none => none

/-- What `entry_point` returns: the override variable's value verbatim, a
path relative to `root_path`, or an absolute path (the glob hit of rule 3,
absolute because the model fixes `root_path` absolute). -/
inductive EPRes where
  | env (s : String)
  | rel (p : List String)
  | abs (p : FPath)
deriving DecidableEq, Repr

/-- Drop the longest common prefix of two component lists, keeping both
remainders. -/
def dropCommon : FPath → FPath → FPath × FPath
  | a :: t, b :: s => if a = b then dropCommon t s else (a :: t, b :: s)
  | t, s => (t, s)

/-- `os.path.relpath(target, start)` on canonical absolute component lists:
drop the common prefix, then one `..` per remaining `start` component. -/
def relpath (target start : FPath) : List String :=
  let ts := dropCommon target start
  ts.2.map (fun _ => "..") ++ ts.1

/-- `entry_point` (the spec's `resolve_manifest`), with `root_path` fixed
canonical absolute and the `ENTRY_POINT` variable passed explicitly. -/
def entry_point (fs : FS) (rootPath : FPath) (envVar : Option String)
    (name : Option String) : Except PyError EPRes :=
  if envTruthy envVar then .ok (.env (envVar.getD ""))
  else
    let fn := FILENAME name
    let pkgLocation := _package_location fs rootPath fn
    let relExists := pexists fs (rootPath ++ [fn])
    if !relExists && pkgLocation.isSome then
      .ok (.abs (rootPath ++ pkgLocation.getD []))
    else
      match find_file_recursively fs fn 6 rootPath with
      | some p => .ok (.rel (relpath p rootPath))
      | none =>
        match findMarker fs rootPath rootMarkers with
        | some rootProject =>
          match _package_location fs rootProject fn with
          | some pkg => .ok (.rel (relpath (rootProject ++ pkg) rootPath))
          | none => .error .dagSpecNotFound
        | none => .error .dagSpecNotFound

/-- `entry_point_relative`, with the working directory passed explicitly;
returns a working-directory-relative path. -/
def entry_point_relative (fs : FS) (cwd : FPath) (name : Option String) :
    Except PyError (List String) :=
  let fn := FILENAME name
  let locationPkg := _package_location fs cwd fn
  let location : Option (List String) :=
    if pexists fs (cwd ++ [fn]) then some [fn] else none
  match locationPkg, location with
  | some _, some _ => .error .valueError
  | none, none => .error .dagSpecNotFound
  | some p, none => .ok p
  | none, some l => .ok l

/-- Split a character list on `/`, dropping empty components (the second
argument accumulates the current component, reversed). -/
def slashSplit : List Char → List Char → List String
  | [], cur => if cur.isEmpty then [] else [String.mk cur.reverse]
  | c :: rest, cur =>
    if c = '/' then
      if cur.isEmpty then slashSplit rest []
      else String.mk cur.reverse :: slashSplit rest []
    else slashSplit rest (c :: cur)

/-- `PurePath(s).parts` for a string value: the `/`-separated components,
with a leading `/` counting as a component of its own. -/
def pyParts (s : String) : List String :=
  let comps := slashSplit s.data []
  if s.data.head? = some '/' then "/" :: comps else comps

/-- `path_to_env_with_name` (the spec's `resolve_env_file`), with the
`PLOOMBER_ENV_FILENAME` variable and the working directory passed
explicitly.  `Path(None)` raises `TypeError`; the final raise reads the
never-assigned `sibling_env` when `path_to_parent` is falsy, which raises
`UnboundLocalError`. -/
def path_to_env_with_name (envVar : Option String) (name : Option String)
    (pathToParent : Option InputPath) (cwd : FPath) (fs : FS) :
    Except PyError (Option FPath) :=
  let ev := envVar.getD ""
  if envTruthy envVar ∧ (pyParts ev).length > 1 then
    match pathToParent with
    | none => .error .typeError
    | some _ => .error .valueError
  else
    let filename :=
      if envTruthy envVar then ev
      else match name with
        | none => "env.yaml"
        | some n => "env." ++ n ++ ".yaml"
    let localEnv := normalizeComps cwd [filename]
    if pexists fs localEnv then .ok (some localEnv)
    else
      match pathToParent with
      | some pp =>
        let siblingEnv := _resolve cwd ⟨pp.absolute, pp.comps ++ [filename]⟩
        if pexists fs siblingEnv then .ok (some siblingEnv)
        else if envTruthy envVar then .error .fileNotFoundError
        else .ok none
      | none =>
        if envTruthy envVar then .error .unboundLocalError
        else .ok none

/-! ## Specification-side definitions and witness fixtures -/

/-- The ancestor of a directory `n` levels up (the directory itself at 0). -/
def ancestorAt : Nat → FPath → FPath
  | 0, p => p
  | n + 1, p => ancestorAt n p.dropLast

/-- The number of levels up (within the given fuel) at which a file `name`
first appears, walking the same parent chain as `find_file_go`. -/
def markerDepthGo (fs : FS) (name : String) : Nat → FPath → Option Nat
  | 0, _ => none
  | n + 1, dir =>
    if pexists fs (dir ++ [name]) then some 0
    else (markerDepthGo fs name n dir.dropLast).map (fun d => d + 1)

/-- Claim C3's reading of `find_project_root`: the nearest ancestor (within
6 levels) holding *any* marker wins, marker priority only breaking ties at
an equally-near depth — which, since the returned value is the containing
directory itself, is simply the nearest ancestor containing a marker. -/
def find_root_claimed (fs : FS) (startingDir : FPath) : Option FPath :=
  ((List.range 6).find? (fun d =>
      rootMarkers.any (fun n => pexists fs (ancestorAt d startingDir ++ [n])))).map
    (fun d => ancestorAt d startingDir)

/-- The amended C3 behaviour: the first marker *name* (in priority order)
that occurs anywhere within the 6-level ascent wins, and for that name the
nearest occurrence's directory is returned; marker priority dominates
proximity. -/
def find_root_amended_spec (fs : FS) (startingDir : FPath) : Option FPath :=
  match rootMarkers.find? (fun n => (markerDepthGo fs n 6 startingDir).isSome) with
  | some n => (markerDepthGo fs n 6 startingDir).map (fun d => ancestorAt d startingDir)
  | none => none

/-- Fixture (C3): `setup.py` in the starting directory, `environment.yml`
one level up. -/
def fsRootMarkers : FS :=
  [(["p", "a", "b", "setup.py"], .file []),
   (["p", "a", "environment.yml"], .file [])]

/-- Fixture (C5): a manifest directly in the root and a package-style
candidate. -/
def fsDirectAndPkg : FS :=
  [(["r", "pipeline.yaml"], .file [1]),
   (["r", "src", "pkg", "pipeline.yaml"], .file [2])]

/-- Fixture (C6): only a package-style manifest. -/
def fsPkgOnly : FS :=
  [(["r", "src", "pkg", "pipeline.yaml"], .file [2])]

/-- Fixture (C6): only a direct manifest. -/
def fsDirectOnly : FS :=
  [(["r", "pipeline.yaml"], .file [1])]

/-- Fixture (C7): a manifest in the root, for the empty-override
counterexample. -/
def fsManifestAtTop : FS :=
  [(["pipeline.yaml"], .file [3])]

/-- Fixture (storage claims): a client with project root `/pr`, working
directory `/pr` and backup directory `backup` (relative, as in the tests). -/
def clientPr : Client :=
  { backupRaw := ⟨false, ["backup"]⟩, root := ["pr"], cwd := ["pr"] }

/-- Fixture: a project tree holding one file `/pr/file`. -/
def fsOneFile : FS :=
  [(["pr"], .dir), (["pr", "file"], .file [7, 8])]

/-- Fixture: a project tree holding a directory `/pr/d` with a file in it. -/
def fsOneDir : FS :=
  [(["pr"], .dir), (["pr", "d"], .dir), (["pr", "d", "f"], .file [9])]

/-- Fixture (C8): a regular file `/pr/a` blocking the destination parent
chain of `a/b`. -/
def fsBlockedParent : FS :=
  [(["pr"], .dir), (["pr", "a"], .file [])]

/-- The exception (if any) of an operation result. -/
def resultError {α : Type} : PyResult α → Option PyError
  | .ok _ _ => none
  | .err e _ => some e

/-- The filesystem an operation left behind (on success or failure). -/
def resultFS {α : Type} : PyResult α → FS
  | .ok _ fs => fs
  | .err _ fs => fs

/-- Fixture: the state after uploading the directory `d` once. -/
def fsOneDirUploaded : FS :=
  resultFS (upload clientPr ⟨false, ["d"]⟩ fsOneDir)

/-! ## Helper lemmas: prefixes and path arithmetic -/

theorem self_isPrefixOf (l : FPath) : l.isPrefixOf l = true := by
  induction l with
  | nil => rfl
  | cons a t ih => simp [List.isPrefixOf, ih]

theorem isPrefixOf_append_self (l t : FPath) : l.isPrefixOf (l ++ t) = true := by
  induction l with
  | nil => cases t <;> rfl
  | cons a s ih => simp [List.isPrefixOf, ih]

theorem append_drop_of_isPrefixOf {l p : FPath} (h : l.isPrefixOf p = true) :
    l ++ p.drop l.length = p := by
  induction l generalizing p with
  | nil => simp
  | cons a s ih =>
    cases p with
    | nil => simp [List.isPrefixOf] at h
    | cons b t =>
      simp only [List.isPrefixOf, Bool.and_eq_true, beq_iff_eq] at h
      obtain ⟨rfl, h2⟩ := h
      simpa using ih h2

theorem length_le_of_isPrefixOf {l p : FPath} (h : l.isPrefixOf p = true) :
    l.length ≤ p.length := by
  induction l generalizing p with
  | nil => simp
  | cons a s ih =>
    cases p with
    | nil => simp [List.isPrefixOf] at h
    | cons b t =>
      simp only [List.isPrefixOf, Bool.and_eq_true, beq_iff_eq] at h
      simpa using ih h.2

theorem isPrefixOf_append_cases {l b c : FPath} (h : l.isPrefixOf (b ++ c) = true) :
    l.isPrefixOf b = true ∨ b.isPrefixOf l = true := by
  induction b generalizing l with
  | nil => right; cases l <;> rfl
  | cons x b' ih =>
    cases l with
    | nil => left; rfl
    | cons y l' =>
      simp only [List.cons_append, List.isPrefixOf, Bool.and_eq_true, beq_iff_eq] at h ⊢
      obtain ⟨rfl, h2⟩ := h
      rcases ih h2 with h3 | h3
      · exact Or.inl ⟨rfl, h3⟩
      · exact Or.inr ⟨rfl, h3⟩

theorem isPrefixOf_trans {a b c : FPath} (h1 : a.isPrefixOf b = true)
    (h2 : b.isPrefixOf c = true) : a.isPrefixOf c = true := by
  have eb := append_drop_of_isPrefixOf h1
  have ec := append_drop_of_isPrefixOf h2
  rw [← ec, ← eb, List.append_assoc]
  exact isPrefixOf_append_self _ _

theorem eq_of_isPrefixOf_length {a b : FPath} (h : a.isPrefixOf b = true)
    (hl : b.length ≤ a.length) : a = b := by
  have := append_drop_of_isPrefixOf h
  have hd : b.drop a.length = [] := List.drop_eq_nil_of_le hl
  rw [hd, List.append_nil] at this
  exact this

theorem take_isPrefixOf (n : Nat) (p : FPath) : (p.take n).isPrefixOf p = true := by
  induction p generalizing n with
  | nil => cases n <;> rfl
  | cons a t ih =>
    cases n with
    | zero => rfl
    | succ m => simp [List.isPrefixOf, ih]

theorem dropLast_isPrefixOf (p : FPath) : p.dropLast.isPrefixOf p = true := by
  rw [List.dropLast_eq_take]
  exact take_isPrefixOf _ _

theorem mem_mkdirChain_iff {p q : FPath} :
    q ∈ mkdirChain p ↔ ∃ i, i < p.length ∧ q = p.take (i + 1) := by
  simp [mkdirChain, List.mem_map, List.mem_range, eq_comm]

theorem length_le_of_mem_mkdirChain {p q : FPath} (h : q ∈ mkdirChain p) :
    q.length ≤ p.length := by
  obtain ⟨i, _, rfl⟩ := mem_mkdirChain_iff.mp h
  simp [List.length_take]

theorem isPrefixOf_of_mem_mkdirChain {p q : FPath} (h : q ∈ mkdirChain p) :
    q.isPrefixOf p = true := by
  obtain ⟨i, _, rfl⟩ := mem_mkdirChain_iff.mp h
  exact take_isPrefixOf _ _

theorem not_mem_mkdirChain_dropLast {p : FPath} (hp : p ≠ []) :
    p ∉ mkdirChain p.dropLast := by
  intro h
  have h1 := length_le_of_mem_mkdirChain h
  have h2 : 0 < p.length := List.length_pos.mpr hp
  rw [List.length_dropLast] at h1
  omega

theorem not_mem_chain_of_not_isPrefixOf {p q r : FPath} (h : q ∈ mkdirChain p)
    (hr : r.isPrefixOf p = false) : q ≠ r := by
  intro hqr
  subst hqr
  rw [isPrefixOf_of_mem_mkdirChain h] at hr
  exact Bool.true_eq_false.mp hr

/-! ## Helper lemmas: filesystem lookup -/

theorem lookup_setEntry (fs : FS) (p : FPath) (e : Entry) (q : FPath) :
    lookup (setEntry fs p e) q = if p = q then some e else lookup fs q := rfl

theorem lookup_append (a b : FS) (q : FPath) :
    lookup (a ++ b) q = if (lookup a q).isSome then lookup a q else lookup b q := by
  induction a with
  | nil => simp [lookup]
  | cons x a ih =>
    by_cases h : x.1 = q
    · simp [lookup, h]
    · simp [lookup, h, ih]

theorem lookup_filterKey (f : FPath → Bool) (fs : FS) (q : FPath) :
    lookup (fs.filter (fun e => f e.1)) q = if f q then lookup fs q else none := by
  induction fs with
  | nil => simp [lookup]
  | cons x fs ih =>
    rw [List.filter_cons]
    by_cases hx : x.1 = q
    · subst hx
      by_cases hf : f x.1
      · simp [hf, lookup]
      · simp [hf, lookup, ih]
    · by_cases hf : f x.1
      · simp [hf, lookup, hx, ih]
      · simp [hf, lookup, hx, ih]

theorem lookup_subtreeEntries (fs : FS) (src q : FPath) :
    lookup (subtreeEntries fs src) q =
      if src.isPrefixOf q then lookup fs q else none :=
  lookup_filterKey (fun p => src.isPrefixOf p) fs q

theorem lookup_deleteTree (fs : FS) (p q : FPath) :
    lookup (deleteTree fs p) q =
      if p.isPrefixOf q then none else lookup fs q := by
  have h := lookup_filterKey (fun x => !(p.isPrefixOf x)) fs q
  rw [show deleteTree fs p = fs.filter (fun e => !(p.isPrefixOf e.1)) from rfl, h]
  by_cases hq : p.isPrefixOf q <;> simp [hq]

theorem lookup_retarget {src dst : FPath} (l : FS) (q : FPath)
    (hk : ∀ e ∈ l, src.isPrefixOf e.1 = true) :
    lookup (retarget src dst l) q =
      if dst.isPrefixOf q then lookup l (src ++ q.drop dst.length) else none := by
  induction l with
  | nil => by_cases hq : dst.isPrefixOf q <;> simp [retarget, lookup, hq]
  | cons x l ih =>
    have hx := hk x (List.mem_cons_self x l)
    have hrest := fun e he => hk e (List.mem_cons_of_mem x he)
    have hstep : lookup (retarget src dst (x :: l)) q =
        if dst ++ x.1.drop src.length = q then some x.2
        else lookup (retarget src dst l) q := rfl
    rw [hstep]
    by_cases hq : dst.isPrefixOf q
    · rw [if_pos hq]
      have hrhs : lookup (x :: l) (src ++ q.drop dst.length) =
          if x.1 = src ++ q.drop dst.length then some x.2
          else lookup l (src ++ q.drop dst.length) := rfl
      rw [hrhs]
      by_cases hkey : dst ++ x.1.drop src.length = q
      · have hx1 : x.1 = src ++ q.drop dst.length := by
          rw [← hkey, List.drop_left]
          exact (append_drop_of_isPrefixOf hx).symm
        rw [if_pos hkey, if_pos hx1]
      · have hx1 : ¬ (x.1 = src ++ q.drop dst.length) := by
          intro he
          apply hkey
          rw [he, List.drop_left]
          exact append_drop_of_isPrefixOf hq
        rw [if_neg hkey, if_neg hx1, ih hrest, if_pos hq]
    · have hkey : ¬ (dst ++ x.1.drop src.length = q) := by
        intro he
        rw [← he] at hq
        exact hq (isPrefixOf_append_self _ _)
      rw [if_neg hkey, ih hrest, if_neg hq, if_neg hq]

/-! ## Helper lemmas: mkdir, copy and copytree characterizations -/

theorem mkdirParentsGo_ok (L : List FPath) (fs : FS)
    (h : ∀ q ∈ L, isFile fs q = false) :
    ∃ fs', mkdirParentsGo fs L = .ok () fs' ∧
      ∀ q, lookup fs' q =
        if lookup fs q = none ∧ q ∈ L then some .dir else lookup fs q := by
  induction L generalizing fs with
  | nil => exact ⟨fs, rfl, by simp⟩
  | cons p L ih =>
    have hp := h p (List.mem_cons_self p L)
    cases hl : lookup fs p with
    | some e =>
      cases e with
      | dir =>
        obtain ⟨fs', h1, h2⟩ := ih fs (fun q hq => h q (List.mem_cons_of_mem p hq))
        refine ⟨fs', ?_, ?_⟩
        · simp [mkdirParentsGo, mkdirOne, hl, h1]
        · intro q
          rw [h2 q]
          by_cases hqp : q = p
          · subst hqp
            simp [hl]
          · simp [List.mem_cons, hqp]
      | file c =>
        rw [isFile, hl] at hp
        exact absurd hp (by simp)
    | none =>
      have h' : ∀ q ∈ L, isFile (setEntry fs p .dir) q = false := by
        intro q hq
        rw [isFile, lookup_setEntry]
        by_cases hpq : p = q
        · simp [hpq]
        · rw [if_neg hpq, ← isFile]
          exact h q (List.mem_cons_of_mem p hq)
      obtain ⟨fs', h1, h2⟩ := ih (setEntry fs p .dir) h'
      refine ⟨fs', ?_, ?_⟩
      · simp [mkdirParentsGo, mkdirOne, hl, h1]
      · intro q
        rw [h2 q, lookup_setEntry]
        by_cases hpq : p = q
        · subst hpq
          simp [hl]
        · have hqp : ¬ (q = p) := fun hh => hpq hh.symm
          simp [List.mem_cons, hqp, if_neg hpq]

theorem isFile_eq_of_mkdirChar {fs fs' : FS} {L : List FPath}
    (h : ∀ q, lookup fs' q =
      if lookup fs q = none ∧ q ∈ L then some .dir else lookup fs q) :
    ∀ q, isFile fs' q = isFile fs q := by
  intro q
  rw [isFile, isFile, h q]
  by_cases hc : lookup fs q = none ∧ q ∈ L
  · rw [if_pos hc, hc.1]
  · rw [if_neg hc]

theorem copyFile_char {fs : FS} {src : FPath} {c : List Nat}
    (hsrc : lookup fs src = some (.file c)) (dst : FPath)
    (hdst : isDir fs dst = false) :
    copyFile src dst fs = .ok () (setEntry fs dst (.file c)) := by
  simp [copyFile, hsrc, hdst]

theorem copytree_char {fs : FS} {src dst : FPath}
    (hsrc : isDir fs src = true) (hdst : lookup fs dst = none)
    (hchain : ∀ q ∈ mkdirChain dst, isFile fs q = false) :
    ∃ fs', copytree src dst fs = .ok () fs' ∧
      ∀ q, lookup fs' q =
        if dst.isPrefixOf q ∧ (lookup fs (src ++ q.drop dst.length)).isSome then
          lookup fs (src ++ q.drop dst.length)
        else if lookup fs q = none ∧ q ∈ mkdirChain dst then some .dir
        else lookup fs q := by
  obtain ⟨fs₁, h1, h2⟩ := mkdirParentsGo_ok (mkdirChain dst) fs hchain
  refine ⟨retarget src dst (subtreeEntries fs src) ++ fs₁, ?_, ?_⟩
  · rw [copytree, if_neg (by simp [hsrc]), if_neg (by simp [hdst]), h1]
  · intro q
    rw [lookup_append, lookup_retarget]
    · rw [lookup_subtreeEntries]
      by_cases hq : dst.isPrefixOf q
      · rw [if_pos hq, if_pos (isPrefixOf_append_self src _)]
        cases hs : lookup fs (src ++ q.drop dst.length) with
        | some e => simp [hq, hs]
        | none => simp [hq, hs, h2 q]
      · rw [if_neg hq]
        simp only [Option.isSome_none, Bool.false_eq_true, if_false]
        rw [h2 q]
        simp [hq]
    · intro e he
      exact List.mem_filter.mp he |>.2

/-! ## Helper lemmas: relpath and the marker search -/

theorem neq_true_of_eq_false {b : Bool} (h : b = false) : ¬ (b = true) :=
  fun hc => by rw [h] at hc; cases hc

theorem ne_of_isPrefixOf_false {a b : FPath} (h : a.isPrefixOf b = false) :
    a ≠ b := by
  intro hab
  subst hab
  rw [self_isPrefixOf] at h
  cases h

theorem isPrefixOf_append_false {a r : FPath} (s : FPath)
    (h1 : a.isPrefixOf r = false) (h2 : r.isPrefixOf a = false) :
    a.isPrefixOf (r ++ s) = false := by
  cases h : a.isPrefixOf (r ++ s) with
  | false => rfl
  | true =>
    rcases isPrefixOf_append_cases h with h3 | h3
    · rw [h1] at h3; cases h3
    · rw [h2] at h3; cases h3

theorem dropCommon_append (s t : FPath) : dropCommon (s ++ t) s = (t, []) := by
  induction s with
  | nil => cases t <;> rfl
  | cons a s ih => simpa [dropCommon] using ih

theorem relpath_append (s t : FPath) : relpath (s ++ t) s = t := by
  simp [relpath, dropCommon_append]

theorem find_file_go_succ (fs : FS) (name : String) (n : Nat) (dir : FPath) :
    find_file_go fs name (n + 1) dir =
      if pexists fs (dir ++ [name]) then some (dir ++ [name])
      else find_file_go fs name n dir.dropLast := rfl

theorem find_file_go_eq (fs : FS) (name : String) (k : Nat) (dir : FPath) :
    find_file_go fs name k dir =
      (markerDepthGo fs name k dir).map (fun d => ancestorAt d dir ++ [name]) := by
  induction k generalizing dir with
  | zero => rfl
  | succ n ih =>
    rw [find_file_go_succ, markerDepthGo]
    by_cases h : pexists fs (dir ++ [name])
    · simp [h, ancestorAt]
    · cases hmd : markerDepthGo fs name n dir.dropLast with
      | none => simp [h, ih, hmd]
      | some d => simp [h, ih, hmd, ancestorAt]

theorem findMarker_eq (fs : FS) (D : FPath) (L : List String) :
    findMarker fs D L =
      match L.find? (fun nm => (markerDepthGo fs nm 6 D).isSome) with
      | some nm => (markerDepthGo fs nm 6 D).map (fun d => ancestorAt d D)
      | none => none := by
  induction L with
  | nil => rfl
  | cons n L ih =>
    rw [findMarker, find_file_recursively, find_file_go_eq]
    cases hmd : markerDepthGo fs n 6 D with
    | some d => simp [List.find?_cons, hmd, List.dropLast_concat]
    | none => simp [List.find?_cons, hmd, ih]

theorem mem_mkdirChain_cases {r q : FPath} (h : q ∈ mkdirChain r) :
    q ∈ mkdirChain r.dropLast ∨ q = r := by
  obtain ⟨i, hi, rfl⟩ := mem_mkdirChain_iff.mp h
  by_cases hlt : i + 1 < r.length
  · left
    rw [mem_mkdirChain_iff]
    refine ⟨i, ?_, ?_⟩
    · rw [List.length_dropLast]; omega
    · rw [List.dropLast_eq_take, List.take_take, min_eq_left (by omega)]
  · right
    have : i + 1 = r.length := by omega
    rw [this, List.take_length]

/-! ## Helper lemmas: the storage client -/

theorem isFile_congr {fs₁ fs₂ : FS} {p : FPath}
    (h : lookup fs₁ p = lookup fs₂ p) : isFile fs₁ p = isFile fs₂ p := by
  rw [isFile, isFile, h]

theorem isDir_congr {fs₁ fs₂ : FS} {p : FPath}
    (h : lookup fs₁ p = lookup fs₂ p) : isDir fs₁ p = isDir fs₂ p := by
  rw [isDir, isDir, h]

theorem lookup_eq_dir_of_isDir {fs : FS} {p : FPath} (h : isDir fs p = true) :
    lookup fs p = some Entry.dir := by
  rw [isDir] at h
  cases hl : lookup fs p with
  | none => rw [hl] at h; cases h
  | some e =>
    cases e with
    | dir => rfl
    | file c => rw [hl] at h; cases h

theorem remote_path_ok {c : Client} {localPath : InputPath} {suffix : FPath}
    (hres : _resolve c.cwd localPath = c.root ++ suffix) :
    _remote_path c localPath = .ok (c.backup ++ suffix) := by
  rw [_remote_path, relative_to, hres, if_pos (isPrefixOf_append_self _ _),
    List.drop_left]

theorem remote_chain_not_self {c : Client} {suffix : FPath}
    (hne : c.backup ++ suffix ≠ []) :
    ∀ {q : FPath}, q ∈ mkdirChain (c.backup ++ suffix).dropLast →
      q ≠ c.backup ++ suffix := by
  intro q hq hcontra
  subst hcontra
  exact not_mem_mkdirChain_dropLast hne hq

/-- Characterization of a file upload: the mirror file is written onto the
mkdir-extended filesystem. -/
theorem upload_file_char {c : Client} {fs : FS} {localPath : InputPath}
    {suffix : FPath} {cc : List Nat}
    (hres : _resolve c.cwd localPath = c.root ++ suffix)
    (hchain : ∀ q ∈ mkdirChain (c.backup ++ suffix).dropLast, isFile fs q = false)
    (hne : c.backup ++ suffix ≠ [])
    (hfile : lookup fs (c.root ++ suffix) = some (.file cc))
    (hdirR : isDir fs (c.backup ++ suffix) = false) :
    resultError (upload c localPath fs) = none ∧
    lookup (resultFS (upload c localPath fs)) (c.backup ++ suffix) =
      some (.file cc) ∧
    (∀ q, q ≠ c.backup ++ suffix →
      lookup (resultFS (upload c localPath fs)) q =
        if lookup fs q = none ∧ q ∈ mkdirChain (c.backup ++ suffix).dropLast then
          some Entry.dir
        else lookup fs q) := by
  obtain ⟨fs₁, hmk, hchar⟩ :=
    mkdirParentsGo_ok (mkdirChain (c.backup ++ suffix).dropLast) fs hchain
  have hr1 : lookup fs₁ (c.backup ++ suffix) = lookup fs (c.backup ++ suffix) := by
    rw [hchar]
    simp [not_mem_mkdirChain_dropLast hne]
  have hl1 : lookup fs₁ (c.root ++ suffix) = some (.file cc) := by
    rw [hchar]
    simp [hfile]
  have hf1 : isFile fs₁ (c.root ++ suffix) = true := by
    rw [isFile, hl1]
  have hDr : isDir fs₁ (c.backup ++ suffix) = false :=
    (isDir_congr hr1).trans hdirR
  have hup : upload c localPath fs =
      .ok () (setEntry fs₁ (c.backup ++ suffix) (.file cc)) := by
    simp only [upload, remote_path_ok hres, hmk, hres, hf1, if_true]
    exact copyFile_char hl1 (c.backup ++ suffix) hDr
  rw [hup]
  refine ⟨rfl, ?_, ?_⟩
  · show lookup (setEntry fs₁ (c.backup ++ suffix) (.file cc)) (c.backup ++ suffix) = _
    rw [lookup_setEntry, if_pos rfl]
  · intro q hq
    show lookup (setEntry fs₁ (c.backup ++ suffix) (.file cc)) q = _
    rw [lookup_setEntry, if_neg (fun hh => hq hh.symm), hchar]

/-- Characterization of a directory upload onto an empty mirror slot: the
whole subtree is mirrored, and any regular file of the result is either
inside the mirror subtree or was a regular file before. -/
theorem upload_dir_char {c : Client} {fs : FS} {localPath : InputPath}
    {suffix : FPath}
    (hres : _resolve c.cwd localPath = c.root ++ suffix)
    (hchain : ∀ q ∈ mkdirChain (c.backup ++ suffix).dropLast, isFile fs q = false)
    (hne : c.backup ++ suffix ≠ [])
    (hdirL : isDir fs (c.root ++ suffix) = true)
    (hrnone : lookup fs (c.backup ++ suffix) = none) :
    resultError (upload c localPath fs) = none ∧
    (∀ s, (lookup fs ((c.root ++ suffix) ++ s)).isSome = true →
      lookup (resultFS (upload c localPath fs)) ((c.backup ++ suffix) ++ s) =
        lookup fs ((c.root ++ suffix) ++ s)) ∧
    (∀ q, isFile (resultFS (upload c localPath fs)) q = true →
      (c.backup ++ suffix).isPrefixOf q = true ∨ isFile fs q = true) := by
  obtain ⟨fs₁, hmk, hchar⟩ :=
    mkdirParentsGo_ok (mkdirChain (c.backup ++ suffix).dropLast) fs hchain
  have hr1 : lookup fs₁ (c.backup ++ suffix) = none := by
    rw [hchar]
    simp [not_mem_mkdirChain_dropLast hne, hrnone]
  have hl1 : lookup fs₁ (c.root ++ suffix) = lookup fs (c.root ++ suffix) := by
    rw [hchar]
    simp [lookup_eq_dir_of_isDir hdirL]
  have hdir1 : isDir fs₁ (c.root ++ suffix) = true := (isDir_congr hl1).trans hdirL
  have hfile1 : isFile fs₁ (c.root ++ suffix) = false := by
    rw [isFile, hl1, lookup_eq_dir_of_isDir hdirL]
  have hchainR : ∀ q ∈ mkdirChain (c.backup ++ suffix), isFile fs₁ q = false := by
    intro q hq
    rcases mem_mkdirChain_cases hq with hq' | rfl
    · rw [isFile_eq_of_mkdirChar hchar q]
      exact hchain q hq'
    · rw [isFile, hr1]
  obtain ⟨fs₂, hct, hchar₂⟩ := copytree_char hdir1 hr1 hchainR
  have hup : upload c localPath fs = .ok () fs₂ := by
    simp only [upload, remote_path_ok hres, hmk, hres, hfile1,
      Bool.false_eq_true, if_false]
    exact hct
  rw [hup]
  have hsub : ∀ s, (lookup fs ((c.root ++ suffix) ++ s)).isSome = true →
      lookup fs₂ ((c.backup ++ suffix) ++ s) = lookup fs ((c.root ++ suffix) ++ s) := by
    intro s hs
    have hl1s : lookup fs₁ ((c.root ++ suffix) ++ s) =
        lookup fs ((c.root ++ suffix) ++ s) := by
      rw [hchar]
      cases hl : lookup fs ((c.root ++ suffix) ++ s) with
      | none => rw [hl] at hs; cases hs
      | some e => simp [hl]
    rw [hchar₂, List.drop_left, hl1s,
      if_pos ⟨isPrefixOf_append_self _ _, hs⟩]
  refine ⟨rfl, hsub, ?_⟩
  intro q hq
  have hq' : isFile fs₂ q = true := hq
  by_cases hpre : (c.backup ++ suffix).isPrefixOf q
  · exact Or.inl hpre
  · right
    rw [isFile, hchar₂] at hq'
    rw [if_neg (fun hh => hpre hh.1)] at hq'
    by_cases hcond : lookup fs₁ q = none ∧ q ∈ mkdirChain (c.backup ++ suffix)
    · rw [if_pos hcond] at hq'
      cases hq'
    · rw [if_neg hcond, hchar] at hq'
      by_cases hcond2 : lookup fs q = none ∧
          q ∈ mkdirChain (c.backup ++ suffix).dropLast
      · rw [if_pos hcond2] at hq'
        cases hq'
      · rw [if_neg hcond2] at hq'
        rw [isFile, hq']

/-- Characterization of a file download with default destination: the
mirror file at the backup slot is copied back onto the local path. -/
theorem download_file_ok {c : Client} {fs₂ : FS} {localPath : InputPath}
    {suffix : FPath} {cc : List Nat}
    (hres : _resolve c.cwd localPath = c.root ++ suffix)
    (hneL : c.root ++ suffix ≠ [])
    (hd2 : (c.backup ++ suffix).isPrefixOf (c.root ++ suffix) = false)
    (hr2 : lookup fs₂ (c.backup ++ suffix) = some (.file cc))
    (hfree2 : ∀ q ∈ mkdirChain (c.root ++ suffix).dropLast, isFile fs₂ q = false)
    (hla2 : isDir fs₂ (c.root ++ suffix) = false) :
    resultError (download c localPath none fs₂) = none ∧
    lookup (resultFS (download c localPath none fs₂)) (c.root ++ suffix) =
      some (.file cc) := by
  have hrchain : (c.backup ++ suffix) ∉ mkdirChain (c.root ++ suffix).dropLast := by
    intro hmem
    have h1 := isPrefixOf_trans (isPrefixOf_of_mem_mkdirChain hmem)
      (dropLast_isPrefixOf _)
    rw [hd2] at h1
    cases h1
  obtain ⟨fs₃, hmk₃, hchar₃⟩ :=
    mkdirParentsGo_ok (mkdirChain (c.root ++ suffix).dropLast) fs₂ hfree2
  have hr3 : lookup fs₃ (c.backup ++ suffix) = some (.file cc) := by
    rw [hchar₃, if_neg (fun hc => hrchain hc.2), hr2]
  have hf₃ : isFile fs₃ (c.backup ++ suffix) = true := by rw [isFile, hr3]
  have hla₃ : lookup fs₃ (c.root ++ suffix) = lookup fs₂ (c.root ++ suffix) := by
    rw [hchar₃, if_neg (fun hc => not_mem_mkdirChain_dropLast hneL hc.2)]
  have hdla : isDir fs₃ (c.root ++ suffix) = false :=
    (isDir_congr hla₃).trans hla2
  have hdl : download c localPath none fs₂ =
      .ok () (setEntry fs₃ (c.root ++ suffix) (.file cc)) := by
    simp only [download, remote_path_ok hres, Option.getD, hres, hmk₃, hf₃,
      if_true]
    exact copyFile_char hr3 (c.root ++ suffix) hdla
  rw [hdl]
  refine ⟨rfl, ?_⟩
  show lookup (setEntry fs₃ (c.root ++ suffix) (.file cc)) (c.root ++ suffix) = _
  rw [lookup_setEntry, if_pos rfl]

/-- Characterization of a directory download with default destination,
after the local subtree has been removed: the mirror subtree is copied
back, restoring every entry present in the pre-upload filesystem. -/
theorem download_dir_ok {c : Client} {fs fs₂ : FS} {localPath : InputPath}
    {suffix : FPath}
    (hres : _resolve c.cwd localPath = c.root ++ suffix)
    (hneL : c.root ++ suffix ≠ [])
    (hd1 : (c.root ++ suffix).isPrefixOf (c.backup ++ suffix) = false)
    (hd2 : (c.backup ++ suffix).isPrefixOf (c.root ++ suffix) = false)
    (hdirL : isDir fs (c.root ++ suffix) = true)
    (hchainL : ∀ q ∈ mkdirChain (c.root ++ suffix).dropLast, isFile fs q = false)
    (hu2 : ∀ s, (lookup fs ((c.root ++ suffix) ++ s)).isSome = true →
      lookup fs₂ ((c.backup ++ suffix) ++ s) = lookup fs ((c.root ++ suffix) ++ s))
    (hu3 : ∀ q, isFile fs₂ q = true →
      (c.backup ++ suffix).isPrefixOf q = true ∨ isFile fs q = true) :
    resultError (download c localPath none
      (deleteTree fs₂ (c.root ++ suffix))) = none ∧
    ∀ s, (lookup fs ((c.root ++ suffix) ++ s)).isSome = true →
      lookup (resultFS (download c localPath none
          (deleteTree fs₂ (c.root ++ suffix))))
        ((c.root ++ suffix) ++ s) = lookup fs ((c.root ++ suffix) ++ s) := by
  have hrchain : (c.backup ++ suffix) ∉ mkdirChain (c.root ++ suffix).dropLast := by
    intro hmem
    have h1 := isPrefixOf_trans (isPrefixOf_of_mem_mkdirChain hmem)
      (dropLast_isPrefixOf _)
    rw [hd2] at h1
    cases h1
  have hfree : ∀ q ∈ mkdirChain (c.root ++ suffix).dropLast,
      isFile (deleteTree fs₂ (c.root ++ suffix)) q = false := by
    intro q hq
    by_cases hlaq : (c.root ++ suffix).isPrefixOf q
    · rw [isFile, lookup_deleteTree, if_pos hlaq]
    · have heq : isFile (deleteTree fs₂ (c.root ++ suffix)) q = isFile fs₂ q :=
        isFile_congr (by rw [lookup_deleteTree, if_neg hlaq])
      rw [heq]
      cases hF : isFile fs₂ q with
      | false => rfl
      | true =>
        exfalso
        rcases hu3 q hF with hrq | hfq
        · have h1 := isPrefixOf_trans hrq
            (isPrefixOf_trans (isPrefixOf_of_mem_mkdirChain hq)
              (dropLast_isPrefixOf _))
          rw [hd2] at h1
          cases h1
        · rw [hchainL q hq] at hfq
          cases hfq
  obtain ⟨fs₃, hmk₃, hchar₃⟩ :=
    mkdirParentsGo_ok (mkdirChain (c.root ++ suffix).dropLast)
      (deleteTree fs₂ (c.root ++ suffix)) hfree
  have h0s : (lookup fs ((c.root ++ suffix) ++ ([] : FPath))).isSome = true := by
    rw [List.append_nil, lookup_eq_dir_of_isDir hdirL]
    rfl
  have h0 := hu2 [] h0s
  rw [List.append_nil, List.append_nil] at h0
  have hr2 : lookup fs₂ (c.backup ++ suffix) = some Entry.dir := by
    rw [h0, lookup_eq_dir_of_isDir hdirL]
  have hr3 : lookup fs₃ (c.backup ++ suffix) = some Entry.dir := by
    rw [hchar₃, if_neg (fun hc => hrchain hc.2), lookup_deleteTree,
      if_neg (by simp [hd1]), hr2]
  have hf₃ : isFile fs₃ (c.backup ++ suffix) = false := by rw [isFile, hr3]
  have hd₃ : isDir fs₃ (c.backup ++ suffix) = true := by rw [isDir, hr3]
  have hla₃ : lookup fs₃ (c.root ++ suffix) = none := by
    rw [hchar₃, if_neg (fun hc => not_mem_mkdirChain_dropLast hneL hc.2),
      lookup_deleteTree, if_pos (self_isPrefixOf _)]
  have hfree₃ : ∀ q ∈ mkdirChain (c.root ++ suffix), isFile fs₃ q = false := by
    intro q hq
    rcases mem_mkdirChain_cases hq with hq' | rfl
    · rw [isFile_eq_of_mkdirChar hchar₃ q]
      exact hfree q hq'
    · rw [isFile, hla₃]
  obtain ⟨fs₄, hct₄, hchar₄⟩ := copytree_char hd₃ hla₃ hfree₃
  have hdl : download c localPath none (deleteTree fs₂ (c.root ++ suffix)) =
      .ok () fs₄ := by
    simp only [download, remote_path_ok hres, Option.getD, hres, hmk₃, hf₃,
      Bool.false_eq_true, if_false, hd₃, if_true]
    exact hct₄
  rw [hdl]
  refine ⟨rfl, ?_⟩
  intro s hs
  have hmem : (c.backup ++ suffix) ++ s ∉
      mkdirChain (c.root ++ suffix).dropLast := by
    intro hmem
    have h1 := isPrefixOf_trans (isPrefixOf_append_self (c.backup ++ suffix) s)
      (isPrefixOf_trans (isPrefixOf_of_mem_mkdirChain hmem)
        (dropLast_isPrefixOf _))
    rw [hd2] at h1
    cases h1
  have hlas : lookup fs₃ ((c.backup ++ suffix) ++ s) =
      lookup fs ((c.root ++ suffix) ++ s) := by
    rw [hchar₃, if_neg (fun hc => hmem hc.2), lookup_deleteTree,
      if_neg (neq_true_of_eq_false (isPrefixOf_append_false s hd1 hd2))]
    exact hu2 s hs
  show lookup fs₄ ((c.root ++ suffix) ++ s) = _
  rw [hchar₄, List.drop_left, hlas, if_pos ⟨isPrefixOf_append_self _ _, hs⟩]

/-! ## Claim theorems -/

/-- C1 (counterexample): for a directory X still present locally,
`upload(X)` followed immediately by `download(X)` does not restore
anything: the download's `copytree` refuses the existing destination and
raises `FileExistsError`. -/
theorem C1_counterexample :
    resultError (upload clientPr ⟨false, ["d"]⟩ fsOneDir) = none ∧
    resultError (download clientPr ⟨false, ["d"]⟩ none fsOneDirUploaded) =
      some .fileExistsError := by
  refine ⟨by decide, by decide⟩

/-- C1 (amended): on a client whose backup and local subtrees are disjoint
and whose mirror slot is fresh, `upload(X)` followed by `download(X)`
restores byte-identical content at X when X is a regular file; when X is a
directory the round trip restores the full tree only provided X is removed
before the download (otherwise the recursive copy refuses the existing
destination, as the counterexample shows). -/
theorem C1_roundtrip (c : Client) (fs : FS) (localPath : InputPath)
    (suffix : FPath)
    (hres : _resolve c.cwd localPath = c.root ++ suffix)
    (hsuf : suffix ≠ [])
    (hd1 : (c.root ++ suffix).isPrefixOf (c.backup ++ suffix) = false)
    (hd2 : (c.backup ++ suffix).isPrefixOf (c.root ++ suffix) = false)
    (hrnone : lookup fs (c.backup ++ suffix) = none)
    (hchainR : ∀ q ∈ mkdirChain (c.backup ++ suffix).dropLast, isFile fs q = false)
    (hchainL : ∀ q ∈ mkdirChain (c.root ++ suffix).dropLast, isFile fs q = false) :
    (∀ cc, lookup fs (c.root ++ suffix) = some (.file cc) →
      resultError (upload c localPath fs) = none ∧
      resultError (download c localPath none
        (resultFS (upload c localPath fs))) = none ∧
      lookup (resultFS (download c localPath none
          (resultFS (upload c localPath fs))))
        (c.root ++ suffix) = some (.file cc)) ∧
    (isDir fs (c.root ++ suffix) = true →
      resultError (upload c localPath fs) = none ∧
      resultError (download c localPath none
        (deleteTree (resultFS (upload c localPath fs))
          (c.root ++ suffix))) = none ∧
      ∀ s, (lookup fs ((c.root ++ suffix) ++ s)).isSome = true →
        lookup (resultFS (download c localPath none
            (deleteTree (resultFS (upload c localPath fs))
              (c.root ++ suffix))))
          ((c.root ++ suffix) ++ s) = lookup fs ((c.root ++ suffix) ++ s)) := by
  have hneR : c.backup ++ suffix ≠ [] := fun h => hsuf (List.append_eq_nil.mp h).2
  have hneL : c.root ++ suffix ≠ [] := fun h => hsuf (List.append_eq_nil.mp h).2
  constructor
  · intro cc hfile
    have hdirR : isDir fs (c.backup ++ suffix) = false := by rw [isDir, hrnone]
    obtain ⟨hu1, hu2, hu3⟩ := upload_file_char hres hchainR hneR hfile hdirR
    have hlaner : (c.root ++ suffix) ≠ (c.backup ++ suffix) :=
      ne_of_isPrefixOf_false hd1
    have hfree2 : ∀ q ∈ mkdirChain (c.root ++ suffix).dropLast,
        isFile (resultFS (upload c localPath fs)) q = false := by
      intro q hq
      have hqr : q ≠ c.backup ++ suffix := by
        intro hcontra
        subst hcontra
        have h1 := isPrefixOf_trans (isPrefixOf_of_mem_mkdirChain hq)
          (dropLast_isPrefixOf _)
        rw [hd2] at h1
        cases h1
      rw [isFile, hu3 q hqr]
      by_cases hcond : lookup fs q = none ∧
          q ∈ mkdirChain (c.backup ++ suffix).dropLast
      · rw [if_pos hcond]
      · rw [if_neg hcond, ← isFile]
        exact hchainL q hq
    have hla2 : isDir (resultFS (upload c localPath fs)) (c.root ++ suffix) =
        false := by
      rw [isDir, hu3 (c.root ++ suffix) hlaner,
        if_neg (fun hc => by rw [hfile] at hc; exact Option.noConfusion hc.1),
        hfile]
    exact ⟨hu1, (download_file_ok hres hneL hd2 hu2 hfree2 hla2).1,
      (download_file_ok hres hneL hd2 hu2 hfree2 hla2).2⟩
  · intro hdirL
    obtain ⟨hu1, hu2, hu3⟩ := upload_dir_char hres hchainR hneR hdirL hrnone
    obtain ⟨hD1, hD2⟩ := download_dir_ok hres hneL hd1 hd2 hdirL hchainL hu2 hu3
    exact ⟨hu1, hD1, hD2⟩

/-- C1 (witness): the file `/pr/file` survives an upload/download round
trip with its bytes intact, and the directory `/pr/d` is restored in full
once it is removed before the download. -/
theorem C1_witness :
    (resultError (upload clientPr ⟨false, ["file"]⟩ fsOneFile) = none ∧
     resultError (download clientPr ⟨false, ["file"]⟩ none
       (resultFS (upload clientPr ⟨false, ["file"]⟩ fsOneFile))) = none ∧
     lookup (resultFS (download clientPr ⟨false, ["file"]⟩ none
         (resultFS (upload clientPr ⟨false, ["file"]⟩ fsOneFile))))
       ["pr", "file"] = some (.file [7, 8])) ∧
    (resultError (download clientPr ⟨false, ["d"]⟩ none
       (deleteTree fsOneDirUploaded ["pr", "d"])) = none ∧
     lookup (resultFS (download clientPr ⟨false, ["d"]⟩ none
         (deleteTree fsOneDirUploaded ["pr", "d"])))
       ["pr", "d", "f"] = some (.file [9])) :=
  ⟨(C1_roundtrip clientPr fsOneFile ⟨false, ["file"]⟩ ["file"]
      (by decide) (by decide) (by decide) (by decide) (by decide) (by decide)
      (by decide)).1 [7, 8] (by decide),
   ((C1_roundtrip clientPr fsOneDir ⟨false, ["d"]⟩ ["d"]
      (by decide) (by decide) (by decide) (by decide) (by decide) (by decide)
      (by decide)).2 (by decide)).2.1,
   ((C1_roundtrip clientPr fsOneDir ⟨false, ["d"]⟩ ["d"]
      (by decide) (by decide) (by decide) (by decide) (by decide) (by decide)
      (by decide)).2 (by decide)).2.2 ["f"] (by decide)⟩

/-- C4: a path whose canonicalization does not lie under the project root
makes `_remote_path` — and hence `upload`, `download` and `_remote_exists`
— fail with the out-of-tree `ValueError`, leaving the filesystem unchanged
(no mirror content is created); a path under the root maps to the backup
location joined with the root-relative suffix. -/
theorem C4_out_of_tree_mapping (c : Client) (fs : FS) (localPath : InputPath) :
    (c.root.isPrefixOf (_resolve c.cwd localPath) = false →
      _remote_path c localPath = .error .valueError ∧
      upload c localPath fs = .err .valueError fs ∧
      download c localPath none fs = .err .valueError fs ∧
      _remote_exists c fs localPath = .error .valueError) ∧
    (∀ suffix : FPath, _resolve c.cwd localPath = c.root ++ suffix →
      _remote_path c localPath = .ok (c.backup ++ suffix)) := by
  constructor
  · intro h
    have hrp : _remote_path c localPath = .error .valueError := by
      rw [_remote_path, relative_to, if_neg (by simp [h])]
    refine ⟨hrp, ?_, ?_, ?_⟩
    · simp only [upload, hrp]
    · simp only [download, hrp]
    · simp only [_remote_exists, hrp]
  · intro suffix hs
    exact remote_path_ok hs

/-- C4 (witness): an absolute path outside `/pr` is rejected by the client
whereas `file` maps to `backup/file` under the project root. -/
theorem C4_witness :
    clientPr.root.isPrefixOf (_resolve clientPr.cwd ⟨true, ["other", "f"]⟩) = false ∧
    _remote_path clientPr ⟨true, ["other", "f"]⟩ = .error .valueError ∧
    upload clientPr ⟨true, ["other", "f"]⟩ fsOneFile = .err .valueError fsOneFile ∧
    _resolve clientPr.cwd ⟨false, ["file"]⟩ = clientPr.root ++ ["file"] ∧
    _remote_path clientPr ⟨false, ["file"]⟩ = .ok (clientPr.backup ++ ["file"]) :=
  ⟨by decide,
   ((C4_out_of_tree_mapping clientPr fsOneFile ⟨true, ["other", "f"]⟩).1 (by decide)).1,
   ((C4_out_of_tree_mapping clientPr fsOneFile ⟨true, ["other", "f"]⟩).1 (by decide)).2.1,
   by decide,
   (C4_out_of_tree_mapping clientPr fsOneFile ⟨false, ["file"]⟩).2 ["file"] (by decide)⟩

/-- C2 (counterexample): re-uploading a directory whose mirror entry
already exists raises `FileExistsError` (from `copytree`) instead of
overwriting, so directory uploads are not last-write-wins. -/
theorem C2_counterexample :
    resultError (upload clientPr ⟨false, ["d"]⟩ fsOneDir) = none ∧
    resultError (upload clientPr ⟨false, ["d"]⟩ fsOneDirUploaded) =
      some .fileExistsError := by
  refine ⟨by decide, by decide⟩

/-- C2 (amended): upload maps the path, creates the mirror parent chain,
and copies: a regular file is written at the mirror path, overwriting an
existing mirror *file*; a directory is mirrored in full when the mirror
slot is empty — an existing mirror entry instead makes a directory upload
fail, so last-write-wins only holds for files. -/
theorem C2_upload_mirrors (c : Client) (fs : FS) (localPath : InputPath)
    (suffix : FPath)
    (hres : _resolve c.cwd localPath = c.root ++ suffix)
    (hchain : ∀ q ∈ mkdirChain (c.backup ++ suffix).dropLast, isFile fs q = false)
    (hne : c.backup ++ suffix ≠ []) :
    (∀ cc, lookup fs (c.root ++ suffix) = some (.file cc) →
      isDir fs (c.backup ++ suffix) = false →
      resultError (upload c localPath fs) = none ∧
      lookup (resultFS (upload c localPath fs)) (c.backup ++ suffix) =
        some (.file cc)) ∧
    (isDir fs (c.root ++ suffix) = true →
      lookup fs (c.backup ++ suffix) = none →
      resultError (upload c localPath fs) = none ∧
      ∀ s, (lookup fs ((c.root ++ suffix) ++ s)).isSome = true →
        lookup (resultFS (upload c localPath fs)) ((c.backup ++ suffix) ++ s) =
          lookup fs ((c.root ++ suffix) ++ s)) := by
  constructor
  · intro cc hfile hdirR
    obtain ⟨h1, h2, _⟩ := upload_file_char hres hchain hne hfile hdirR
    exact ⟨h1, h2⟩
  · intro hdirL hrnone
    obtain ⟨h1, h2, _⟩ := upload_dir_char hres hchain hne hdirL hrnone
    exact ⟨h1, h2⟩

/-- C2 (witness): uploading the file `/pr/file` lands its bytes at
`/pr/backup/file`. -/
theorem C2_witness :
    resultError (upload clientPr ⟨false, ["file"]⟩ fsOneFile) = none ∧
    lookup (resultFS (upload clientPr ⟨false, ["file"]⟩ fsOneFile))
      ["pr", "backup", "file"] = some (.file [7, 8]) :=
  (C2_upload_mirrors clientPr fsOneFile ⟨false, ["file"]⟩ ["file"]
    (by decide) (by decide) (by decide)).1 [7, 8] (by decide) (by decide)

/-- C8 (counterexample): when a regular file blocks the destination's
parent chain, a download of a missing mirror entry raises
`FileExistsError` from the parent `mkdir`, not the remote-not-found
error. -/
theorem C8_counterexample :
    lookup fsBlockedParent ["pr", "backup", "a", "b"] = none ∧
    resultError (download clientPr ⟨false, ["a", "b"]⟩ none fsBlockedParent) =
      some .fileExistsError ∧
    some PyError.fileExistsError ≠
      some (PyError.remoteFileNotFound (renderInput ⟨false, ["a", "b"]⟩)
        (clientRepr clientPr)) := by
  refine ⟨by decide, by decide, by decide⟩

/-- C8 (amended): when the mirror entry is absent and no regular file
blocks the destination parent chain, `download` raises
`RemoteFileNotFound` carrying the requested path and the client
description, writes no file, and changes nothing except possibly creating
empty parent directories of the destination. -/
theorem C8_download_missing_remote (c : Client) (fs : FS)
    (localPath : InputPath) (suffix : FPath)
    (hres : _resolve c.cwd localPath = c.root ++ suffix)
    (hrnone : lookup fs (c.backup ++ suffix) = none)
    (hd2 : (c.backup ++ suffix).isPrefixOf (c.root ++ suffix) = false)
    (hchainL : ∀ q ∈ mkdirChain (c.root ++ suffix).dropLast, isFile fs q = false) :
    resultError (download c localPath none fs) =
      some (.remoteFileNotFound (renderInput localPath) (clientRepr c)) ∧
    (∀ q, isFile (resultFS (download c localPath none fs)) q = isFile fs q) ∧
    (∀ q, lookup (resultFS (download c localPath none fs)) q = lookup fs q ∨
      (lookup fs q = none ∧
        lookup (resultFS (download c localPath none fs)) q = some Entry.dir ∧
        q ∈ mkdirChain (c.root ++ suffix).dropLast)) := by
  obtain ⟨fs₁, hmk, hchar⟩ :=
    mkdirParentsGo_ok (mkdirChain (c.root ++ suffix).dropLast) fs hchainL
  have hr1 : lookup fs₁ (c.backup ++ suffix) = none := by
    rw [hchar]
    have hnm : (c.backup ++ suffix) ∉ mkdirChain (c.root ++ suffix).dropLast := by
      intro hmem
      have h1 := isPrefixOf_trans (isPrefixOf_of_mem_mkdirChain hmem)
        (dropLast_isPrefixOf _)
      rw [hd2] at h1
      cases h1
    simp [hnm, hrnone]
  have hF : isFile fs₁ (c.backup ++ suffix) = false := by rw [isFile, hr1]
  have hD : isDir fs₁ (c.backup ++ suffix) = false := by rw [isDir, hr1]
  have hdl : download c localPath none fs =
      .err (.remoteFileNotFound (renderInput localPath) (clientRepr c)) fs₁ := by
    simp only [download, remote_path_ok hres, Option.getD, hres, hmk, hF, hD,
      Bool.false_eq_true, if_false]
  rw [hdl]
  refine ⟨rfl, ?_, ?_⟩
  · intro q
    exact isFile_eq_of_mkdirChar hchar q
  · intro q
    have hc := hchar q
    by_cases hcond : lookup fs q = none ∧
        q ∈ mkdirChain (c.root ++ suffix).dropLast
    · rw [if_pos hcond] at hc
      exact Or.inr ⟨hcond.1, hc, hcond.2⟩
    · rw [if_neg hcond] at hc
      exact Or.inl hc

/-- C8 (witness): downloading the never-uploaded `nosuch` fails with the
remote-not-found error naming the path and the client, leaving the file
`/pr/file` untouched. -/
theorem C8_witness :
    resultError (download clientPr ⟨false, ["nosuch"]⟩ none fsOneFile) =
      some (.remoteFileNotFound "nosuch" "LocalStorageClient(backup)") ∧
    isFile (resultFS (download clientPr ⟨false, ["nosuch"]⟩ none fsOneFile))
      ["pr", "file"] = isFile fsOneFile ["pr", "file"] :=
  ⟨(C8_download_missing_remote clientPr fsOneFile ⟨false, ["nosuch"]⟩ ["nosuch"]
      (by decide) (by decide) (by decide) (by decide)).1,
   (C8_download_missing_remote clientPr fsOneFile ⟨false, ["nosuch"]⟩ ["nosuch"]
      (by decide) (by decide) (by decide) (by decide)).2.1 ["pr", "file"]⟩

/-- C3 (counterexample): with `setup.py` in the starting directory and
`environment.yml` one level up, the claim's nearest-marker reading returns
the starting directory itself, but `find_root_recursively` returns the
directory one level up: marker priority dominates proximity. -/
theorem C3_counterexample :
    find_root_claimed fsRootMarkers ["p", "a", "b"] = some ["p", "a", "b"] ∧
    find_root_recursively fsRootMarkers ["p", "a", "b"] false =
      .ok (some ["p", "a"]) ∧
    (["p", "a"] : FPath) ≠ ["p", "a", "b"] := by
  refine ⟨by decide, by decide, by decide⟩

/-- C3 (amended): `find_root_recursively` returns the parent directory of
the *nearest occurrence of the highest-priority marker name* that occurs
anywhere within the 6-level ascent — marker priority dominates proximity,
and depth only breaks ties within a single marker name; when no marker
exists within the bound it returns an absent value, or raises `ValueError`
in strict mode. -/
theorem C3_root_resolution (fs : FS) (D : FPath) :
    find_root_recursively fs D false = .ok (find_root_amended_spec fs D) ∧
    find_root_recursively fs D true =
      (match find_root_amended_spec fs D with
       | some r => .ok (some r)
       | none => .error .valueError) := by
  have hm := findMarker_eq fs D rootMarkers
  rw [find_root_amended_spec]
  constructor
  · rw [find_root_recursively, hm]
    cases hf : rootMarkers.find? (fun nm => (markerDepthGo fs nm 6 D).isSome) with
    | none => simp
    | some nm =>
      cases hd : markerDepthGo fs nm 6 D with
      | none => simp [hf, hd]
      | some d => simp [hf, hd]
  · rw [find_root_recursively, hm]
    cases hf : rootMarkers.find? (fun nm => (markerDepthGo fs nm 6 D).isSome) with
    | none => simp
    | some nm =>
      cases hd : markerDepthGo fs nm 6 D with
      | none =>
        have := List.find?_some hf
        rw [hd] at this
        cases this
      | some d => simp [hf, hd]

/-- C5: when the expected manifest filename exists directly inside
`root_path` and the override variable is unset, `entry_point` returns that
directly-placed manifest (as the root-relative path) — never a
package-style `src/*/` candidate, whatever else exists on disk. -/
theorem C5_direct_manifest_wins (fs : FS) (rootPath : FPath)
    (name : Option String)
    (h : pexists fs (rootPath ++ [FILENAME name]) = true) :
    entry_point fs rootPath none name = .ok (.rel [FILENAME name]) ∧
    ∀ p : FPath, EPRes.rel [FILENAME name] ≠ EPRes.abs p := by
  constructor
  · rw [entry_point, if_neg (by simp [envTruthy])]
    simp only [h, Bool.not_true, Bool.false_and, Bool.false_eq_true, if_false]
    rw [find_file_recursively, show (6 : Nat) = 5 + 1 from rfl,
      find_file_go_succ, if_pos h]
    show Except.ok (EPRes.rel (relpath (rootPath ++ [FILENAME name]) rootPath)) =
      Except.ok (EPRes.rel [FILENAME name])
    rw [relpath_append]
  · intro p hcontra
    cases hcontra

/-- C6: single-file resolution relative to the working directory: both a
direct manifest and a package-style candidate raise the ambiguity
`ValueError`; neither raises `DAGSpecNotFound`; exactly one of the two is
returned. -/
theorem C6_relative_resolution (fs : FS) (cwd : FPath) (name : Option String) :
    (∀ p, _package_location fs cwd (FILENAME name) = some p →
      pexists fs (cwd ++ [FILENAME name]) = true →
      entry_point_relative fs cwd name = .error .valueError) ∧
    (_package_location fs cwd (FILENAME name) = none →
      pexists fs (cwd ++ [FILENAME name]) = false →
      entry_point_relative fs cwd name = .error .dagSpecNotFound) ∧
    (∀ p, _package_location fs cwd (FILENAME name) = some p →
      pexists fs (cwd ++ [FILENAME name]) = false →
      entry_point_relative fs cwd name = .ok p) ∧
    (_package_location fs cwd (FILENAME name) = none →
      pexists fs (cwd ++ [FILENAME name]) = true →
      entry_point_relative fs cwd name = .ok [FILENAME name]) := by
  refine ⟨?_, ?_, ?_, ?_⟩
  · intro p h1 h2
    rw [entry_point_relative]
    simp [h1, h2]
  · intro h1 h2
    rw [entry_point_relative]
    simp [h1, h2]
  · intro p h1 h2
    rw [entry_point_relative]
    simp [h1, h2]
  · intro h1 h2
    rw [entry_point_relative]
    simp [h1, h2]

/-- C6 (witness): the three outcomes at concrete filesystems. -/
theorem C6_witness :
    entry_point_relative fsDirectAndPkg ["r"] none = .error .valueError ∧
    entry_point_relative ([] : FS) ["r"] none = .error .dagSpecNotFound ∧
    entry_point_relative fsPkgOnly ["r"] none =
      .ok ["src", "pkg", "pipeline.yaml"] ∧
    entry_point_relative fsDirectOnly ["r"] none = .ok ["pipeline.yaml"] :=
  ⟨(C6_relative_resolution fsDirectAndPkg ["r"] none).1
      ["src", "pkg", "pipeline.yaml"] (by decide) (by decide),
   (C6_relative_resolution ([] : FS) ["r"] none).2.1 (by decide) (by decide),
   (C6_relative_resolution fsPkgOnly ["r"] none).2.2.1
      ["src", "pkg", "pipeline.yaml"] (by decide) (by decide),
   (C6_relative_resolution fsDirectOnly ["r"] none).2.2.2 (by decide) (by decide)⟩

/-- C5 (witness): with both a direct and a package-style manifest under the
root, the direct one is returned. -/
theorem C5_witness :
    pexists fsDirectAndPkg (["r"] ++ ["pipeline.yaml"]) = true ∧
    entry_point fsDirectAndPkg ["r"] none none = .ok (.rel ["pipeline.yaml"]) :=
  ⟨by decide, (C5_direct_manifest_wins fsDirectAndPkg ["r"] none (by decide)).1⟩

/-- C7 (counterexample): with the override variable *set but empty*, the
code falls through to discovery instead of returning the empty value
verbatim, because it tests Python truthiness rather than presence. -/
theorem C7_counterexample :
    entry_point fsManifestAtTop [] (some "") none =
      .ok (.rel ["pipeline.yaml"]) ∧
    entry_point fsManifestAtTop [] (some "") none ≠ .ok (.env "") := by
  refine ⟨by decide, by decide⟩

/-- C7 (amended): whenever the override variable is set to a *non-empty*
value, `entry_point` returns that value verbatim, ignoring `root_path`,
`name` and the whole filesystem. -/
theorem C7_override_verbatim (fs : FS) (rootPath : FPath)
    (name : Option String) (v : String) (hv : v ≠ "") :
    entry_point fs rootPath (some v) name = .ok (.env v) := by
  rw [entry_point, if_pos (by simp [envTruthy, hv])]
  rfl

/-- C7 (witness): a concrete non-empty override value is returned verbatim
even though a manifest exists on disk. -/
theorem C7_witness :
    "other.yaml" ≠ "" ∧
    entry_point fsManifestAtTop [] (some "other.yaml") none =
      .ok (.env "other.yaml") :=
  ⟨by decide, C7_override_verbatim fsManifestAtTop [] none "other.yaml" (by decide)⟩

/-- C9: with the override variable holding a value with a directory
separator, the code raises before probing the filesystem — but with a
`None` parent it raises `TypeError` (from `Path(None)`) instead of the
documented `ValueError`; with a parent directory it raises the documented
`ValueError`. -/
theorem C9_invalid_override :
    path_to_env_with_name (some "a/b.yaml") none none ["cwd"] [] =
      .error .typeError ∧
    path_to_env_with_name (some "a/b.yaml") none (some ⟨false, ["pp"]⟩)
      ["cwd"] [] = .error .valueError ∧
    path_to_env_with_name (some "a/b.yaml") none (some ⟨false, ["pp"]⟩)
      ["cwd"] [(["cwd", "a", "b.yaml"], .file []), (["pp", "a", "b.yaml"], .file [])] =
      .error .valueError := by
  refine ⟨by decide, by decide, by decide⟩

/-- C10: with the override variable holding a bare filename that exists
neither in the working directory nor next to the parent, the code raises
the documented `FileNotFoundError` when a parent is given — but with a
`None` parent the raise itself reads the never-assigned `sibling_env`
variable, so it raises `UnboundLocalError` instead. -/
theorem C10_env_override_missing_file :
    path_to_env_with_name (some "x.yaml") none none ["cwd"] [] =
      .error .unboundLocalError ∧
    path_to_env_with_name (some "x.yaml") none (some ⟨false, ["pp"]⟩)
      ["cwd"] [] = .error .fileNotFoundError := by
  refine ⟨by decide, by decide⟩

end Ploomber
